import Mathlib

/-
Verification of the bookmark-processing pipeline of the knowledge-management
repository.  The Python source is shallowly embedded: pure helpers become Lean
functions over character lists, the stage caches and record store become
association lists inside an explicit state record, and the external
collaborators (HTTP client, readability extractor, structured-completion
client, tokenizer, hash) are parameters of an environment record.
-/

namespace KM

/-- Characters that Python `str.strip()` removes (the ASCII whitespace set
used by Python: space, tab, newline, carriage return, vertical tab, form feed). -/
def isPySpace (c : Char) : Bool :=
  c == ' ' || c == '\t' || c == '\n' || c == '\r' || c == '\x0b' || c == '\x0c'

/-- Model of Python `str.lower()` (ASCII case mapping, which covers every
input appearing in the repository and its spec). -/
def py_lower (s : String) : String :=
  String.mk (s.data.map Char.toLower)

/-- Strip leading and trailing characters satisfying `p` from a character list. -/
def stripBy (p : Char → Bool) (l : List Char) : List Char :=
  ((l.dropWhile p).reverse.dropWhile p).reverse

/-- Model of Python `str.strip()`. -/
def py_strip (s : String) : String :=
  String.mk (stripBy isPySpace s.data)

/-- The character map realising Python `str.replace(" ", "-")`. -/
def spaceToHyphen (c : Char) : Char :=
  if c == ' ' then '-' else c

/-- Model of Python `str.replace(" ", "-")` (single-character replacement is a
character-wise map). -/
def py_replace_space (s : String) : String :=
  String.mk (s.data.map spaceToHyphen)

/-- `normalize_tag` from `bookmarks/processors/base.py`:
`tag.lower().strip().replace(" ", "-")`. -/
def normalize_tag (tag : String) : String :=
  py_replace_space (py_strip (py_lower tag))

/-- Does the character list start with the given needle?  (Helper for the
Python `in` operator on strings.) -/
def leadsWith : List Char → List Char → Bool
  | [], _ => true
  | _ :: _, [] => false
  | a :: as, b :: bs => a == b && leadsWith as bs

/-- Does the haystack contain the needle as a contiguous run?  (Helper for the
Python `in` operator on strings.) -/
def containsRun (needle : List Char) : List Char → Bool
  | [] => needle.isEmpty
  | b :: bs => leadsWith needle (b :: bs) || containsRun needle bs

/-- Model of the Python expression `needle in hay` on strings. -/
def py_in (needle hay : String) : Bool :=
  containsRun needle.data hay.data

/-- Model of Python string slicing `s[:n]` (by characters). -/
def py_take (n : Nat) (s : String) : String :=
  String.mk (s.data.take n)

/-- Model of Python string slicing `s[-n:]` (by characters; a short string is
returned whole, as in Python). -/
def py_last (n : Nat) (s : String) : String :=
  String.mk (s.data.drop (s.data.length - n))

/-- The character class of the Python regex `\w` (ASCII view: alphanumerics
and underscore). -/
def isWordChar (c : Char) : Bool :=
  c.isAlphanum || c == '_'

/-- Replace every maximal run of characters satisfying `p` by the single
character `rep` (the effect of `re.sub(cls+, rep, s)` for a character
class `cls`). -/
def collapseRuns (p : Char → Bool) (rep : Char) : List Char → List Char
  | [] => []
  | [c] => if p c then [rep] else [c]
  | c :: d :: rest =>
    if p c then
      if p d then collapseRuns p rep (d :: rest)
      else rep :: collapseRuns p rep (d :: rest)
    else c :: collapseRuns p rep (d :: rest)

/-- `sanitize_filename` from `bookmark_processor.py`: lower-case, delete
characters outside word/whitespace/hyphen, collapse whitespace runs to a
hyphen, collapse hyphen runs, strip surrounding hyphens. -/
def sanitize_filename (title : String) : String :=
  let lowered := title.data.map Char.toLower
  let cleaned := lowered.filter (fun c => isWordChar c || isPySpace c || c == '-')
  let hyphened := collapseRuns isPySpace '-' cleaned
  let collapsed := collapseRuns (fun c => c == '-') '-' hyphened
  String.mk (stripBy (fun c => c == '-') collapsed)

/-- `truncate_to_token_limit` from `bookmarks/utils/llm.py`, parameterised by
the external tokenizer (tiktoken) through its `encode` and `decode`
functions: if the token count is within the budget the content is returned
unchanged, otherwise the decoding of the first `max_tokens` tokens. -/
def truncate_to_token_limit {τ : Type} (encode : String → List τ)
    (decode : List τ → String) (content : String) (max_tokens : Nat) : String :=
  let tokens := encode content
  if tokens.length ≤ max_tokens then content
  else decode (tokens.take max_tokens)

/-- An HTTP response as seen through `requests.get`: status code and body. -/
structure HttpResponse where
  status : Nat
  text : String
deriving DecidableEq, Repr

/-- The object returned by `readabilipy.simple_json_from_html_string`:
the pipeline reads its `title` and its possibly-null `plain_content`. -/
structure ReadabilityObj where
  title : String
  plain_content : Option String
deriving DecidableEq, Repr

/-- The structured-completion output (`ExpectedOutput`): summary, key points,
tags and a folder classification. -/
structure SummaryOutput where
  summary : String
  key_points : List String
  tags : List String
  folder : String
deriving DecidableEq, Repr

/-- The external collaborators of the pipeline, as deterministic functions:
`http` models `requests.get`, `extract_json` and `extract_tree` model the
two readabilipy extractors, `llm` models the structured-completion call,
`url_hash` models `hashlib.sha256(url.encode()).hexdigest()`, and
`tok_encode`/`tok_decode` model the tiktoken tokenizer. -/
structure Env where
  http : String → HttpResponse
  extract_json : String → ReadabilityObj
  extract_tree : String → String
  llm : String → SummaryOutput
  url_hash : String → String
  tok_encode : String → List Nat
  tok_decode : List Nat → String

/-- Bookmark status (`models.Bookmark.status`; the source creates bookmarks
with status 0 = new, the spec names the other two states). -/
inductive BStatus where
  | new
  | failed
  | completed
deriving DecidableEq, Repr

/-- A `models.Bookmark` row (keyed by its fingerprint in the store). -/
structure BookmarkRec where
  url : String
  title : String
  status : BStatus
deriving DecidableEq, Repr

/-- A `models.Error` row (keyed by its fingerprint in the store): the
processing-error ledger entry. -/
structure ErrorRec where
  url : String
  title : String
  exc : String
deriving DecidableEq, Repr

/-- The persistent state touched by the pipeline: the four file-backed stage
caches (raw page, readability json, readability html, rendered notes), the
summarize-stage cache, the record store (bookmarks, error ledger), and the
instrumentation counters for external calls (network fetches and
summarization calls). -/
structure St where
  webPage : List (String × String)
  readability : List (String × ReadabilityObj)
  readabilityHtml : List (String × String)
  summaryNotes : List (String × String)
  summaryCache : List (String × String)
  bookmarks : List (String × BookmarkRec)
  errors : List (String × ErrorRec)
  fetches : Nat
  llmCalls : Nat
deriving DecidableEq, Repr

/-- The empty store with zeroed call counters. -/
def emptySt : St :=
  ⟨[], [], [], [], [], [], [], 0, 0⟩

/-- The failure kinds raised by the pipeline, one constructor per distinct
`ValueError` message format in the source. -/
inductive PErr where
  | forbidden (url : String)
  | notFound (url : String)
  | serverError (url : String)
  | unknownStatus (code : Nat) (url : String)
  | noContent
deriving DecidableEq, Repr

/-- The exception message carried by each failure, exactly as formatted by
the source (f-strings over the URL and status code). -/
def PErr.message : PErr → String
  | .forbidden url => "Status=403 " ++ url
  | .notFound url => "URL Missing: " ++ url
  | .serverError url => "Service problem: " ++ url
  | .unknownStatus code url => "StatusCode: " ++ toString code ++ " URL: " ++ url
  | .noContent => "No content"

/-- `get_content` from `bookmarks/utils/urls.py`: one HTTP GET; a 200 response
yields the body, 403/404/500 raise their dedicated errors, and every other
status raises the unknown-status error.  The fetch counter records the one
network call that is always performed. -/
def get_content (env : Env) (url : String) (s : St) : Except PErr String × St :=
  let resp := env.http url
  let s1 : St := { s with fetches := s.fetches + 1 }
  if resp.status == 200 then (.ok resp.text, s1)
  else if resp.status == 403 then (.error (.forbidden url), s1)
  else if resp.status == 404 then (.error (.notFound url), s1)
  else if resp.status == 500 then (.error (.serverError url), s1)
  else (.error (.unknownStatus resp.status url), s1)

/-- `get_webpage` from `bookmark_processor.py`: return the cached raw page if
one exists; otherwise cache and return supplied content if any; otherwise
perform one HTTP GET, classify non-200 statuses exactly as `get_content`
does, and cache the 200 body before returning it. -/
def get_webpage (env : Env) (url_hash url : String) (html_content : Option String)
    (s : St) : Except PErr String × St :=
  match s.webPage.lookup url_hash with
  | some cached => (.ok cached, s)
  | none =>
    match html_content with
    | some supplied =>
      (.ok supplied, { s with webPage := (url_hash, supplied) :: s.webPage })
    | none =>
      let resp := env.http url
      let s1 : St := { s with fetches := s.fetches + 1 }
      if resp.status == 200 then
        (.ok resp.text, { s1 with webPage := (url_hash, resp.text) :: s1.webPage })
      else if resp.status == 403 then (.error (.forbidden url), s1)
      else if resp.status == 404 then (.error (.notFound url), s1)
      else if resp.status == 500 then (.error (.serverError url), s1)
      else (.error (.unknownStatus resp.status url), s1)

/-- The second half of `get_readability`: the readability-html side cache is
read if present and otherwise computed with `simple_tree_from_html_string`
and written; the function then returns the json object. -/
def readability_html_step (env : Env) (url_hash html_content : String)
    (content_obj : ReadabilityObj) (s : St) : Except PErr ReadabilityObj × St :=
  match s.readabilityHtml.lookup url_hash with
  | some _ => (.ok content_obj, s)
  | none =>
    (.ok content_obj,
      { s with readabilityHtml := (url_hash, env.extract_tree html_content) :: s.readabilityHtml })

/-- `get_readability` from `bookmark_processor.py`: read the cached json
object if present; otherwise run the extractor, raise `No content` when the
plain content is null (before anything is written), and cache the object.
Either way the html side cache is then filled if missing. -/
def get_readability (env : Env) (url_hash html_content : String) (s : St) :
    Except PErr ReadabilityObj × St :=
  match s.readability.lookup url_hash with
  | some content_obj => readability_html_step env url_hash html_content content_obj s
  | none =>
    let content_obj := env.extract_json html_content
    match content_obj.plain_content with
    | none => (.error .noContent, s)
    | some _ =>
      readability_html_step env url_hash html_content content_obj
        { s with readability := (url_hash, content_obj) :: s.readability }

/-- Locate the part of the URL after the first double slash (the authority
part read by `urllib.parse.urlparse` on the scheme://host/path URLs the
registry is used with). -/
def afterDoubleSlash : List Char → Option (List Char)
  | '/' :: '/' :: rest => some rest
  | _ :: rest => afterDoubleSlash rest
  | [] => none

/-- Model of `urlparse(url).netloc` for scheme://host/path-shaped URLs: the
run following the first double slash, up to the next delimiter. -/
def extract_netloc (url : String) : String :=
  match afterDoubleSlash url.data with
  | some rest =>
    String.mk (rest.takeWhile (fun c => !(c == '/' || c == '?' || c == '#')))
  | none => ""

/-- The processors reachable through the registry of
`bookmarks/processors/init.py`: the dictionary holds arxiv.org and
youtube.com, everything else falls back to the default processor. -/
inductive RegProcessor where
  | arxiv
  | youtube
  | generic
deriving DecidableEq, Repr

/-- `get_processor` from `bookmarks/processors/init.py`: exact lookup of the
lower-cased netloc in the registry dictionary, default processor otherwise. -/
def get_processor (url : String) : RegProcessor :=
  let domain := py_lower (extract_netloc url)
  if domain == "arxiv.org" then .arxiv
  else if domain == "youtube.com" then .youtube
  else .generic

/-- The template name keyed by processor variant (spec section 4.4 step 6). -/
def template_name : RegProcessor → String
  | .arxiv => "academic"
  | .youtube => "youtube"
  | .generic => "article"

/-- Modelled from the spec: the note rendering of steps 5 and 6 of section
4.4 (the template substitution itself is external jinja2 code absent from
the source tree); a deterministic substitution of the canonical fields into
the processor-variant template. -/
def render_note (tmpl title summary : String) (key_points tags : List String)
    (url : String) : String :=
  "template: " ++ tmpl ++ "\n# " ++ title ++ "\n" ++ url ++ "\n\n" ++ summary ++ "\n" ++
    String.intercalate "\n" (key_points.map (fun p => "* " ++ p)) ++ "\n" ++
    String.intercalate "\n" (tags.map (fun t => " - " ++ t))

/-- Modelled from the spec: `generate_markdown` of the processor classes
(`DefaultProcessor` and friends), whose definitions are absent from the
source tree (only the registry, the abstract base class and
`process_bookmark`, its caller, exist).  Following spec sections 4.2 and 4.4
steps 4 to 6: the summarize stage is read through its cache keyed by the
fingerprint; on a miss the content is truncated to the fixed token budget,
one structured-completion call is made, tags are normalized, the note is
rendered from the processor-variant template, and the artifact is persisted
before being returned. -/
def generate_markdown (env : Env) (kind : RegProcessor) (url url_hash title : String)
    (content : Option String) (s : St) : Except PErr String × St :=
  match s.summaryCache.lookup url_hash with
  | some md => (.ok md, s)
  | none =>
    let text := match content with
      | some t => t
      | none => ""
    let truncated := truncate_to_token_limit env.tok_encode env.tok_decode text 10000
    let out := env.llm truncated
    let s1 : St := { s with llmCalls := s.llmCalls + 1 }
    let tags := out.tags.map normalize_tag
    let md := render_note (template_name kind) title out.summary out.key_points tags url
    (.ok md, { s1 with summaryCache := (url_hash, md) :: s1.summaryCache })

/-- `process_bookmark` from `bookmark_processor.py` (the file-backed pipeline
the spec canonicalizes): fingerprint the URL, run the fetch stage, the
readability stage and the processor markdown generation, then write the note
under the sanitized length-capped title plus the short fingerprint suffix.
The Python function ends without a return statement, so its value is `none`
even on success. -/
def process_bookmark (env : Env) (url : String) (html_content : Option String)
    (s : St) : Except PErr (Option String) × St :=
  let url_hash := env.url_hash url
  match get_webpage env url_hash url html_content s with
  | (.error e, s1) => (.error e, s1)
  | (.ok html, s1) =>
    match get_readability env url_hash html s1 with
    | (.error e, s2) => (.error e, s2)
    | (.ok content_obj, s2) =>
      match generate_markdown env (get_processor url) url url_hash content_obj.title
          content_obj.plain_content s2 with
      | (.error e, s3) => (.error e, s3)
      | (.ok markdown, s3) =>
        let base_name := sanitize_filename (py_take 50 content_obj.title)
        let filename := base_name ++ "-" ++ py_last 4 url_hash ++ ".md"
        (.ok none, { s3 with summaryNotes := (filename, markdown) :: s3.summaryNotes })

/-- `insert` of the error ledger (spec section 4.6; `models.Error` declares
the row with the fingerprint as primary key, and the source contains no
writer for it): a no-op when a record for the fingerprint already exists,
first failure preserved. -/
def record_failure (h url title : String) (e : PErr) (s : St) : St :=
  match s.errors.lookup h with
  | some _ => s
  | none => { s with errors := (h, ⟨url, title, e.message⟩) :: s.errors }

/-- Set the status of the bookmark stored under the given fingerprint. -/
def set_status (h : String) (st : BStatus) (s : St) : St :=
  { s with
    bookmarks := s.bookmarks.map
      (fun p => cond (p.fst == h) (p.fst, { p.snd with status := st }) p) }

/-- The title of the bookmark stored under the fingerprint, if any. -/
def stored_title (h : String) (s : St) : String :=
  match s.bookmarks.lookup h with
  | some b => b.title
  | none => ""

/-- Modelled from the spec: the record-backed orchestrator wrapper around the
pipeline (spec section 4.4 step 8 and section 4.6).  `process_generic_url`
and `reprocess` call a `process_bookmark(bookmark)` variant taking a
`models.Bookmark` record that is absent from the source tree (the only
definition present takes a URL); per the spec, on success the bookmark
becomes Completed with the title stored, and on any exception a
ProcessingError is recorded unless one exists for the fingerprint, the
bookmark becomes Failed, and the exception is re-raised. -/
def process_bookmark_tracked (env : Env) (url : String) (html_content : Option String)
    (s : St) : Except PErr (Option String) × St :=
  let h := env.url_hash url
  match process_bookmark env url html_content s with
  | (.ok md, s1) => (.ok md, set_status h .completed s1)
  | (.error e, s1) =>
    (.error e, set_status h .failed (record_failure h url (stored_title h s1) e s1))

/-- `is_arxiv_url` from `bookmarks/processors/arxiv.py`. -/
def is_arxiv_url (url : String) : Bool :=
  py_in "arxiv.org" (py_lower url)

/-- `is_twitter_url` from `bookmarks/processors/twitter.py` (the module the
listener dispatches through). -/
def is_twitter_url (url : String) : Bool :=
  py_in "twitter.com" (py_lower url) || py_in "https://x.com" (py_lower url)

/-- `is_youtube_url` from `bookmarks/processors/youtube.py`. -/
def is_youtube_url (url : String) : Bool :=
  py_in "youtube.com" (py_lower url)

/-- The four dispatch targets of the listener. -/
inductive ProcKind where
  | arxiv
  | twitter
  | youtube
  | generic
deriving DecidableEq, Repr

/-- The domain-matcher chain of `listener.process_file` (lines 40 to 50):
first match among arxiv, twitter, youtube, otherwise the generic default
processor. -/
def dispatch_url (url : String) : ProcKind :=
  if is_arxiv_url url then .arxiv
  else if is_twitter_url url then .twitter
  else if is_youtube_url url then .youtube
  else .generic

/-- The payload of a capture file consumed by the listener. -/
structure CaptureData where
  url : String
  html_content : Option String
  screenshot : Option String
deriving DecidableEq, Repr

/-- The `for attempt in range(3)` parse loop of `listener.process_file`.
`reads i` is the outcome of parsing the file on attempt `i` (`none` for a
`JSONDecodeError`).  Faithful to the source: a successful parse stores the
data and the loop continues (there is no break), a failed parse sleeps and
continues when `attempt < 2` and raises on the final attempt. -/
def run_attempts (reads : Nat → Option CaptureData) (data : Option CaptureData) :
    List Nat → Except String CaptureData
  | [] =>
    match data with
    | some d => .ok d
    | none => .error "data unbound"
  | i :: rest =>
    match reads i with
    | some d => run_attempts reads (some d) rest
    | none =>
      if i < 2 then run_attempts reads data rest
      else .error "JSONDecodeError"

/-- `process_file` from `bookmarks/listener.py`: retry-parse the capture
file, dispatch its URL through the domain matcher to the processing handler,
and delete the file (`os.remove`) only after the handler returns.  The
boolean part of the result reports whether the file was deleted. -/
def process_file (reads : Nat → Option CaptureData)
    (handler : ProcKind → CaptureData → Except PErr Unit) :
    Except String Unit × Bool :=
  match run_attempts reads none [0, 1, 2] with
  | .error e => (.error e, false)
  | .ok d =>
    match handler (dispatch_url d.url) d with
    | .error e => (.error e.message, false)
    | .ok _ => (.ok (), true)

/-- A concrete environment for witnesses: every collaborator succeeds and the
stub answers mirror the end-to-end scenario of spec section 8. -/
def envGood : Env := {
  http := fun _ => ⟨200, "<html><title>Example Title</title>Hello world this is content</html>"⟩,
  extract_json := fun _ => ⟨"Example Title", some "Hello world this is content"⟩,
  extract_tree := fun _ => "<div>Hello world</div>",
  llm := fun _ => ⟨"S", ["K1"], ["Tag One"], "Research/Technology"⟩,
  url_hash := fun u => "h" ++ u,
  tok_encode := fun s => s.data.map Char.toNat,
  tok_decode := fun l => String.mk (l.map Char.ofNat) }

/-- A concrete environment whose HTTP collaborator always answers with the
given status code. -/
def envStatus (n : Nat) : Env :=
  { envGood with http := fun _ => ⟨n, "BODY"⟩ }

/-- A concrete environment whose readability extractor returns a null
plain content. -/
def envNoContent : Env :=
  { envGood with extract_json := fun _ => ⟨"Example Title", none⟩ }

/-- A store already holding a cached raw page for the fingerprint H. -/
def stOld : St :=
  { emptySt with webPage := [("H", "old")] }

/-- The state after a first end-to-end run of the pipeline on the example
URL from the empty store. -/
def s1W : St :=
  (process_bookmark envGood "https://example.com/page" none emptySt).snd

/-- A concrete capture payload for listener witnesses. -/
def cexData : CaptureData :=
  ⟨"https://example.com/page", some "<html></html>", none⟩

/-- Attempt outcomes: invalid, valid, invalid (a file valid within three
attempts but not on the third). -/
def cexReads : Nat → Option CaptureData :=
  fun i => if i == 1 then some cexData else none

/-- Attempt outcomes: invalid on the first read, then valid. -/
def lateReads : Nat → Option CaptureData :=
  fun i => if i == 0 then none else some cexData

/-- A processing handler that always returns without raising. -/
def okHandler : ProcKind → CaptureData → Except PErr Unit :=
  fun _ _ => .ok ()

/-- The branch structure shared by the non-200 classification of
`get_content` and `get_webpage` (proof-side abbreviation). -/
def classify_status (n : Nat) (u : String) : PErr :=
  if n == 403 then .forbidden u
  else if n == 404 then .notFound u
  else if n == 500 then .serverError u
  else .unknownStatus n u

/-- The number of rows the ledger holds for a fingerprint. -/
def countKey (h : String) (l : List (String × ErrorRec)) : Nat :=
  l.countP (fun p => p.fst == h)

/-- A store holding one new bookmark for the fingerprint of the URL u under
the witness hash function. -/
def sBk : St :=
  { emptySt with bookmarks := [("hu", ⟨"u", "T", .new⟩)] }

theorem mem_of_mem_stripBy {p : Char → Bool} {l : List Char} {c : Char}
    (h : c ∈ stripBy p l) : c ∈ l := by
  unfold stripBy at h
  rw [List.mem_reverse] at h
  have h2 := (List.dropWhile_sublist (l := (l.dropWhile p).reverse) p).subset h
  rw [List.mem_reverse] at h2
  exact (List.dropWhile_sublist p).subset h2

theorem head_dropWhile_all (p : Char → Bool) (l : List Char) :
    ((l.dropWhile p).head?).all (fun c => !p c) = true := by
  induction l with
  | nil => rfl
  | cons c t ih =>
    by_cases h : p c
    · simpa [List.dropWhile_cons, h] using ih
    · simp [List.dropWhile_cons, h]

theorem getLast?_dropWhile (p : Char → Bool) (l : List Char)
    (h : l.dropWhile p ≠ []) : (l.dropWhile p).getLast? = l.getLast? := by
  induction l with
  | nil => simp at h
  | cons c t ih =>
    by_cases hc : p c
    · rw [List.dropWhile_cons, if_pos hc] at h ⊢
      have ht : t ≠ [] := by
        intro he
        exact h (by simp [he])
      obtain ⟨x, xs, rfl⟩ := List.exists_cons_of_ne_nil ht
      rw [ih h, List.getLast?_cons_cons]
    · rw [List.dropWhile_cons, if_neg hc]

theorem stripBy_head_all (p : Char → Bool) (l : List Char) :
    ((stripBy p l).head?).all (fun c => !p c) = true := by
  unfold stripBy
  rw [List.head?_reverse]
  by_cases hX : List.dropWhile p (l.dropWhile p).reverse = []
  · rw [hX]; rfl
  · rw [getLast?_dropWhile p _ hX, List.getLast?_reverse]
    exact head_dropWhile_all p l

theorem stripBy_getLast_all (p : Char → Bool) (l : List Char) :
    ((stripBy p l).getLast?).all (fun c => !p c) = true := by
  unfold stripBy
  rw [List.getLast?_reverse]
  exact head_dropWhile_all p _

theorem spaceToHyphen_ne_space (e : Char) : spaceToHyphen e ≠ ' ' := by
  unfold spaceToHyphen
  by_cases h : e == ' '
  · simp [h]
  · simp only [if_neg h]
    exact fun he => h (by simp [he])

theorem isPySpace_spaceToHyphen (c : Char) (h : isPySpace c = false) :
    isPySpace (spaceToHyphen c) = false := by
  unfold spaceToHyphen
  by_cases hc : c == ' '
  · rw [show c = ' ' by simpa using hc] at h
    simp [isPySpace] at h
  · rwa [if_neg hc]

/-- C9: truncation to the token budget is a no-op on content whose token
count is within the budget, and is idempotent, for any tokenizer whose
encoding of the decoding of a token-prefix of an encoding returns that
prefix. -/
theorem truncate_noop_and_idempotent {τ : Type} (encode : String → List τ)
    (decode : List τ → String) (max_tokens : Nat)
    (hstable : ∀ s k, encode (decode ((encode s).take k)) = (encode s).take k) :
    (∀ c, (encode c).length ≤ max_tokens →
      truncate_to_token_limit encode decode c max_tokens = c) ∧
    (∀ c, truncate_to_token_limit encode decode
        (truncate_to_token_limit encode decode c max_tokens) max_tokens
      = truncate_to_token_limit encode decode c max_tokens) := by
  constructor
  · intro c h
    simp [truncate_to_token_limit, h]
  · intro c
    by_cases h : (encode c).length ≤ max_tokens
    · simp [truncate_to_token_limit, h]
    · have h2 : truncate_to_token_limit encode decode c max_tokens
          = decode ((encode c).take max_tokens) := by
        simp [truncate_to_token_limit, h]
      have h4 : (encode (decode ((encode c).take max_tokens))).length ≤ max_tokens := by
        rw [hstable c max_tokens, List.length_take]
        exact Nat.min_le_left _ _
      rw [h2]
      simp [truncate_to_token_limit, h4]

/-- Witness for C9: the character tokenizer (for which the stability
hypothesis holds definitionally) at a budget of 3 tokens. -/
theorem truncate_noop_and_idempotent_witness :
    truncate_to_token_limit String.data String.mk "ab" 3 = "ab" ∧
    truncate_to_token_limit String.data String.mk
        (truncate_to_token_limit String.data String.mk "abcde" 3) 3
      = truncate_to_token_limit String.data String.mk "abcde" 3 := by
  have h := truncate_noop_and_idempotent String.data String.mk 3 (fun s k => rfl)
  exact ⟨h.1 "ab" (by decide), h.2 "abcde"⟩

/-- C10: tag normalization lower-cases, trims surrounding whitespace and
replaces spaces with hyphens.  Concretely, Tag One becomes tag-one; every
output character is the space-to-hyphen image of the lower-casing of an
input character; no space and no surrounding whitespace survives. -/
theorem normalize_tag_correct :
    normalize_tag "Tag One" = "tag-one" ∧
    (∀ t : String, ∀ c ∈ (normalize_tag t).data,
      ∃ d ∈ t.data, c = spaceToHyphen d.toLower) ∧
    (∀ t : String, ∀ c ∈ (normalize_tag t).data, c ≠ ' ') ∧
    (∀ t : String,
      ((normalize_tag t).data.head?).all (fun c => !isPySpace c) = true ∧
      ((normalize_tag t).data.getLast?).all (fun c => !isPySpace c) = true) := by
  have hdata : ∀ t : String, (normalize_tag t).data
      = (stripBy isPySpace (t.data.map Char.toLower)).map spaceToHyphen := fun t => rfl
  refine ⟨by decide, ?_, ?_, ?_⟩
  · intro t c hc
    rw [hdata] at hc
    obtain ⟨e, he, rfl⟩ := List.mem_map.mp hc
    obtain ⟨d, hd, rfl⟩ := List.mem_map.mp (mem_of_mem_stripBy he)
    exact ⟨d, hd, rfl⟩
  · intro t c hc
    rw [hdata] at hc
    obtain ⟨e, _, rfl⟩ := List.mem_map.mp hc
    exact spaceToHyphen_ne_space e
  · intro t
    constructor
    · rw [hdata, List.head?_map]
      have h := stripBy_head_all isPySpace (t.data.map Char.toLower)
      cases hh : (stripBy isPySpace (t.data.map Char.toLower)).head? with
      | none => rfl
      | some c0 =>
        rw [hh] at h
        simp only [Option.map_some, Option.all_some] at h ⊢
        simpa using isPySpace_spaceToHyphen c0 (by simpa using h)
    · rw [hdata, List.getLast?_map]
      have h := stripBy_getLast_all isPySpace (t.data.map Char.toLower)
      cases hh : (stripBy isPySpace (t.data.map Char.toLower)).getLast? with
      | none => rfl
      | some c0 =>
        rw [hh] at h
        simp only [Option.map_some, Option.all_some] at h ⊢
        simpa using isPySpace_spaceToHyphen c0 (by simpa using h)

/-- Witness for C10: the membership hypotheses discharged on concrete tags. -/
theorem normalize_tag_correct_witness :
    (∃ d ∈ ("Ab" : String).data, 'a' = spaceToHyphen d.toLower) ∧
    ('b' : Char) ≠ ' ' ∧
    ((normalize_tag " A b ").data.head?).all (fun c => !isPySpace c) = true :=
  ⟨normalize_tag_correct.2.1 "Ab" 'a' (by decide),
   normalize_tag_correct.2.2.1 "Ab" 'b' (by decide),
   (normalize_tag_correct.2.2.2 " A b ").1⟩

/-- C7: the listener's domain dispatch is a pure total function of the URL;
the four sample URLs map to arxiv, twitter, youtube and generic, and every
URL matching none of the three predicates falls back to the generic
processor (so dispatch never raises). -/
theorem dispatch_url_correct :
    dispatch_url "https://arxiv.org/abs/1234.5678" = .arxiv ∧
    dispatch_url "https://x.com/u/status/1" = .twitter ∧
    dispatch_url "https://youtube.com/watch?v=abc" = .youtube ∧
    dispatch_url "https://example.com/page" = .generic ∧
    (∀ url, is_arxiv_url url = false → is_twitter_url url = false →
      is_youtube_url url = false → dispatch_url url = .generic) := by
  refine ⟨by decide, by decide, by decide, by decide, ?_⟩
  intro url h1 h2 h3
  simp [dispatch_url, h1, h2, h3]

/-- Witness for C7: the fallback clause at a concrete unmatched URL. -/
theorem dispatch_url_correct_witness :
    dispatch_url "ftp://files.example.net/readme" = .generic :=
  dispatch_url_correct.2.2.2.2 "ftp://files.example.net/readme"
    (by decide) (by decide) (by decide)

theorem run_attempts_eq (reads : Nat → Option CaptureData) :
    run_attempts reads none [0, 1, 2]
      = match reads 2 with
        | some d => .ok d
        | none => .error "JSONDecodeError" := by
  cases h0 : reads 0 <;> cases h1 : reads 1 <;> cases h2 : reads 2 <;>
    simp [run_attempts, h0, h1, h2]

/-- C6 counterexample: a capture file invalid on the first read but valid on
the second attempt (hence valid within 3 attempts), under a handler that
never raises, is neither processed nor deleted: the loop has no break, so
only the third read decides the outcome, and here the third read is again
invalid. -/
theorem process_file_retry_cex :
    cexReads 0 = none ∧ cexReads 1 = some cexData ∧
    (∀ k d, okHandler k d = .ok ()) ∧
    (process_file cexReads okHandler).snd = false ∧
    (process_file cexReads okHandler).fst = .error "JSONDecodeError" :=
  ⟨rfl, rfl, fun _ _ => rfl, by decide, rfl⟩

/-- C6 amended: the parse loop performs all three reads and its outcome is
that of the third; a file whose third read parses (in particular one that
becomes valid and stays valid, the writer-flush case) is processed and then
deleted when processing returns without raising; a file whose third read
fails to parse (in particular one invalid on all three attempts) raises and
is not deleted; a raising handler also leaves the file in place; and the
file is deleted only when parsing succeeded and processing returned without
raising. -/
theorem process_file_retry_amended (reads : Nat → Option CaptureData)
    (handler : ProcKind → CaptureData → Except PErr Unit) :
    (∀ d, reads 2 = some d → handler (dispatch_url d.url) d = .ok () →
      process_file reads handler = (.ok (), true)) ∧
    (∀ d e, reads 2 = some d → handler (dispatch_url d.url) d = .error e →
      process_file reads handler = (.error e.message, false)) ∧
    (reads 2 = none →
      process_file reads handler = (.error "JSONDecodeError", false)) ∧
    ((process_file reads handler).snd = true →
      ∃ d, reads 2 = some d ∧ handler (dispatch_url d.url) d = .ok ()) := by
  refine ⟨?_, ?_, ?_, ?_⟩
  · intro d hr hh
    simp [process_file, run_attempts_eq, hr, hh]
  · intro d e hr hh
    simp [process_file, run_attempts_eq, hr, hh]
  · intro hr
    simp [process_file, run_attempts_eq, hr]
  · intro hdel
    cases hr : reads 2 with
    | none => simp [process_file, run_attempts_eq, hr] at hdel
    | some d =>
      cases hh : handler (dispatch_url d.url) d with
      | error e => simp [process_file, run_attempts_eq, hr, hh] at hdel
      | ok u => exact ⟨d, rfl, by cases u; exact hh⟩

/-- Witness for C6: a file invalid on the first read but valid on the third
is processed and deleted. -/
theorem process_file_retry_amended_witness :
    process_file lateReads okHandler = (.ok (), true) :=
  (process_file_retry_amended lateReads okHandler).1 cexData rfl rfl

theorem msg_six_forbidden (u : String) :
    (PErr.forbidden u).message.data[6]? = some '=' := by
  show (("Status=403 " ++ u)).data[6]? = some '='
  rw [String.data_append, List.getElem?_append_left (by decide)]
  rfl

theorem msg_six_notFound (u : String) :
    (PErr.notFound u).message.data[6]? = some 's' := by
  show (("URL Missing: " ++ u)).data[6]? = some 's'
  rw [String.data_append, List.getElem?_append_left (by decide)]
  rfl

theorem msg_six_server (u : String) :
    (PErr.serverError u).message.data[6]? = some 'e' := by
  show (("Service problem: " ++ u)).data[6]? = some 'e'
  rw [String.data_append, List.getElem?_append_left (by decide)]
  rfl

theorem msg_six_unknown (c : Nat) (u : String) :
    (PErr.unknownStatus c u).message.data[6]? = some 'C' := by
  show (("StatusCode: " ++ toString c ++ " URL: " ++ u)).data[6]? = some 'C'
  rw [String.data_append, String.data_append, String.data_append,
    List.append_assoc, List.append_assoc, List.getElem?_append_left (by decide)]
  rfl

theorem message_ne_of_six {a b : PErr}
    (h : a.message.data[6]? ≠ b.message.data[6]?) : a.message ≠ b.message :=
  fun e => h (by rw [e])

theorem get_webpage_miss_none_fst (env : Env) (h u : String) (s : St)
    (hmiss : s.webPage.lookup h = none) :
    (get_webpage env h u none s).fst = (get_content env u s).fst := by
  unfold get_webpage get_content
  rw [hmiss]
  by_cases h1 : (env.http u).status == 200 <;>
    by_cases h2 : (env.http u).status == 403 <;>
      by_cases h3 : (env.http u).status == 404 <;>
        by_cases h4 : (env.http u).status == 500 <;>
          simp [h1, h2, h3, h4]

/-- C5: one fetch per call, never retried; a 200 response yields the body;
403, 404 and 500 raise their dedicated errors and every other non-200 status
raises the unknown-status error; the four error kinds are pairwise distinct,
both as values and through their exception messages; and the cache-miss path
of `get_webpage` classifies statuses exactly as `get_content` does. -/
theorem get_content_classifies (env : Env) (url : String) (s : St) :
    ((env.http url).status = 200 →
      get_content env url s = (.ok (env.http url).text, { s with fetches := s.fetches + 1 })) ∧
    ((env.http url).status = 403 →
      get_content env url s = (.error (.forbidden url), { s with fetches := s.fetches + 1 })) ∧
    ((env.http url).status = 404 →
      get_content env url s = (.error (.notFound url), { s with fetches := s.fetches + 1 })) ∧
    ((env.http url).status = 500 →
      get_content env url s = (.error (.serverError url), { s with fetches := s.fetches + 1 })) ∧
    ((env.http url).status ≠ 200 → (env.http url).status ≠ 403 →
     (env.http url).status ≠ 404 → (env.http url).status ≠ 500 →
      get_content env url s = (.error (.unknownStatus (env.http url).status url),
        { s with fetches := s.fetches + 1 })) ∧
    ((get_content env url s).snd.fetches = s.fetches + 1) ∧
    (∀ h, s.webPage.lookup h = none →
      (get_webpage env h url none s).fst = (get_content env url s).fst) ∧
    (∀ code, code ≠ 200 → code ≠ 403 → code ≠ 404 → code ≠ 500 →
      PErr.forbidden url ≠ PErr.notFound url ∧
      PErr.forbidden url ≠ PErr.serverError url ∧
      PErr.forbidden url ≠ PErr.unknownStatus code url ∧
      PErr.notFound url ≠ PErr.serverError url ∧
      PErr.notFound url ≠ PErr.unknownStatus code url ∧
      PErr.serverError url ≠ PErr.unknownStatus code url ∧
      (PErr.forbidden url).message ≠ (PErr.notFound url).message ∧
      (PErr.forbidden url).message ≠ (PErr.serverError url).message ∧
      (PErr.forbidden url).message ≠ (PErr.unknownStatus code url).message ∧
      (PErr.notFound url).message ≠ (PErr.serverError url).message ∧
      (PErr.notFound url).message ≠ (PErr.unknownStatus code url).message ∧
      (PErr.serverError url).message ≠ (PErr.unknownStatus code url).message) := by
  refine ⟨?_, ?_, ?_, ?_, ?_, ?_, ?_, ?_⟩
  · intro h; simp [get_content, h]
  · intro h; simp [get_content, h]
  · intro h; simp [get_content, h]
  · intro h; simp [get_content, h]
  · intro h1 h2 h3 h4
    have e1 : ((env.http url).status == 200) = false := beq_eq_false_iff_ne.mpr h1
    have e2 : ((env.http url).status == 403) = false := beq_eq_false_iff_ne.mpr h2
    have e3 : ((env.http url).status == 404) = false := beq_eq_false_iff_ne.mpr h3
    have e4 : ((env.http url).status == 500) = false := beq_eq_false_iff_ne.mpr h4
    simp [get_content, e1, e2, e3, e4]
  · unfold get_content
    by_cases h1 : (env.http url).status == 200 <;>
      by_cases h2 : (env.http url).status == 403 <;>
        by_cases h3 : (env.http url).status == 404 <;>
          by_cases h4 : (env.http url).status == 500 <;>
            simp [h1, h2, h3, h4]
  · intro h hmiss
    exact get_webpage_miss_none_fst env h url s hmiss
  · intro code _ _ _ _
    refine ⟨by simp, by simp, by simp, by simp, by simp, by simp, ?_, ?_, ?_, ?_, ?_, ?_⟩
    · exact message_ne_of_six (by rw [msg_six_forbidden, msg_six_notFound]; decide)
    · exact message_ne_of_six (by rw [msg_six_forbidden, msg_six_server]; decide)
    · exact message_ne_of_six (by rw [msg_six_forbidden, msg_six_unknown]; decide)
    · exact message_ne_of_six (by rw [msg_six_notFound, msg_six_server]; decide)
    · exact message_ne_of_six (by rw [msg_six_notFound, msg_six_unknown]; decide)
    · exact message_ne_of_six (by rw [msg_six_server, msg_six_unknown]; decide)

/-- Witness for C5: each branch of the classification exercised by a
concrete environment answering with the relevant status code, plus the
distinctness of the four error kinds at a concrete unknown status. -/
theorem get_content_classifies_witness :
    get_content (envStatus 200) "u" emptySt
      = (.ok "BODY", { emptySt with fetches := 1 }) ∧
    get_content (envStatus 403) "u" emptySt
      = (.error (.forbidden "u"), { emptySt with fetches := 1 }) ∧
    get_content (envStatus 404) "u" emptySt
      = (.error (.notFound "u"), { emptySt with fetches := 1 }) ∧
    get_content (envStatus 500) "u" emptySt
      = (.error (.serverError "u"), { emptySt with fetches := 1 }) ∧
    get_content (envStatus 502) "u" emptySt
      = (.error (.unknownStatus 502 "u"), { emptySt with fetches := 1 }) ∧
    (get_webpage (envStatus 404) "H" "u" none emptySt).fst
      = (get_content (envStatus 404) "u" emptySt).fst ∧
    (PErr.forbidden "u").message ≠ (PErr.unknownStatus 502 "u").message :=
  ⟨(get_content_classifies (envStatus 200) "u" emptySt).1 rfl,
   (get_content_classifies (envStatus 403) "u" emptySt).2.1 rfl,
   (get_content_classifies (envStatus 404) "u" emptySt).2.2.1 rfl,
   (get_content_classifies (envStatus 500) "u" emptySt).2.2.2.1 rfl,
   (get_content_classifies (envStatus 502) "u" emptySt).2.2.2.2.1
     (by decide) (by decide) (by decide) (by decide),
   (get_content_classifies (envStatus 404) "u" emptySt).2.2.2.2.2.2.1 "H" rfl,
   ((get_content_classifies (envStatus 502) "u" emptySt).2.2.2.2.2.2.2 502
     (by decide) (by decide) (by decide) (by decide)).2.2.2.2.2.2.2.2.1⟩

/-- C4 counterexample: with a raw page already cached for the fingerprint,
supplying fresh caller content neither replaces the cache nor is returned:
the fetch stage answers with the previously cached page and leaves the cache
as it was, so fresh raw input does not supersede a cached raw page. -/
theorem get_webpage_supersede_cex :
    stOld.webPage.lookup "H" = some "old" ∧
    get_webpage envGood "H" "https://example.com/page" (some "new") stOld
      = (.ok "old", stOld) ∧
    (get_webpage envGood "H" "https://example.com/page" (some "new") stOld).fst
      ≠ .ok "new" ∧
    (get_webpage envGood "H" "https://example.com/page" (some "new") stOld).snd.webPage.lookup "H"
      ≠ some "new" :=
  ⟨rfl, rfl,
   by
     intro hcontra
     have h2 : (Except.ok "old" : Except PErr String) = Except.ok "new" := hcontra
     injection h2 with h3
     exact absurd h3 (by decide),
   by decide⟩

/-- C4 amended: supplied caller content is authoritative only on a cache
miss, where it is cached directly and returned; when a raw page is already
cached for the fingerprint, the cached page is returned unchanged and the
supplied content is ignored; in either case no network fetch happens. -/
theorem get_webpage_supplied_amended (env : Env) (h u c : String) (s : St) :
    (s.webPage.lookup h = none →
      get_webpage env h u (some c) s
        = (.ok c, { s with webPage := (h, c) :: s.webPage })) ∧
    (∀ v, s.webPage.lookup h = some v →
      get_webpage env h u (some c) s = (.ok v, s)) ∧
    ((get_webpage env h u (some c) s).snd.fetches = s.fetches) := by
  refine ⟨?_, ?_, ?_⟩
  · intro hm
    simp [get_webpage, hm]
  · intro v hv
    simp [get_webpage, hv]
  · cases hl : s.webPage.lookup h <;> simp [get_webpage, hl]

/-- Witness for C4: both branches at concrete stores. -/
theorem get_webpage_supplied_amended_witness :
    get_webpage envGood "H" "u" (some "new") emptySt
      = (.ok "new", { emptySt with webPage := [("H", "new")] }) ∧
    get_webpage envGood "H" "u" (some "new") stOld = (.ok "old", stOld) :=
  ⟨(get_webpage_supplied_amended envGood "H" "u" "new" emptySt).1 rfl,
   (get_webpage_supplied_amended envGood "H" "u" "new" stOld).2.1 "old" rfl⟩

theorem get_webpage_miss_err (env : Env) (h u : String) (s : St)
    (hmiss : s.webPage.lookup h = none)
    (hne : (env.http u).status ≠ 200) :
    get_webpage env h u none s
      = (.error (classify_status (env.http u).status u),
         { s with fetches := s.fetches + 1 }) := by
  have e1 : ((env.http u).status == 200) = false := beq_eq_false_iff_ne.mpr hne
  unfold get_webpage classify_status
  rw [hmiss]
  by_cases h2 : (env.http u).status == 403 <;>
    by_cases h3 : (env.http u).status == 404 <;>
      by_cases h4 : (env.http u).status == 500 <;>
        simp [e1, h2, h3, h4]

/-- C8: a failing compute leaves the stage cache untouched.  A non-200
response on the fetch stage persists nothing: every cache is unchanged, the
raw-page entry for the fingerprint is still absent, and the next call for
the same fingerprint recomputes from scratch (it performs another fetch).
A readability extraction with null plain content likewise persists nothing
and leaves the state exactly as it was. -/
theorem stage_failure_not_cached (env : Env) (h u html : String) (s : St) :
    ((env.http u).status ≠ 200 → s.webPage.lookup h = none →
      (∃ e, (get_webpage env h u none s).fst = .error e) ∧
      (get_webpage env h u none s).snd.webPage = s.webPage ∧
      (get_webpage env h u none s).snd.readability = s.readability ∧
      (get_webpage env h u none s).snd.readabilityHtml = s.readabilityHtml ∧
      (get_webpage env h u none s).snd.summaryCache = s.summaryCache ∧
      (get_webpage env h u none s).snd.webPage.lookup h = none ∧
      (get_webpage env h u none ((get_webpage env h u none s).snd)).snd.fetches
        = s.fetches + 2) ∧
    ((env.extract_json html).plain_content = none → s.readability.lookup h = none →
      get_readability env h html s = (.error .noContent, s)) := by
  constructor
  · intro hne hmiss
    rw [get_webpage_miss_err env h u s hmiss hne]
    refine ⟨⟨_, rfl⟩, rfl, rfl, rfl, rfl, hmiss, ?_⟩
    rw [get_webpage_miss_err env h u { s with fetches := s.fetches + 1 } hmiss hne]
  · intro hnull hmiss
    simp [get_readability, hmiss, hnull]

/-- Witness for C8: a 403 response and a null extraction on the empty
store. -/
theorem stage_failure_not_cached_witness :
    (∃ e, (get_webpage (envStatus 403) "H" "u" none emptySt).fst = .error e) ∧
    (get_webpage (envStatus 403) "H" "u" none emptySt).snd.webPage.lookup "H" = none ∧
    get_readability envNoContent "H" "<html></html>" emptySt
      = (.error .noContent, emptySt) :=
  ⟨((stage_failure_not_cached (envStatus 403) "H" "u" "x" emptySt).1
      (by decide) rfl).1,
   ((stage_failure_not_cached (envStatus 403) "H" "u" "x" emptySt).1
      (by decide) rfl).2.2.2.2.2.1,
   (stage_failure_not_cached envNoContent "H" "u" "<html></html>" emptySt).2 rfl rfl⟩

/-- C3 (code-bug exhibit): on a URL whose processing succeeds end to end,
`process_bookmark` persists a non-empty rendered note, yet returns `none`
(the Python function has no return statement), so neither `bookmark` nor the
ingestion endpoint can answer with the markdown it produced. -/
theorem process_bookmark_returns_none :
    (process_bookmark envGood "https://example.com/page" none emptySt).fst = .ok none ∧
    ((process_bookmark envGood "https://example.com/page" none emptySt).snd.summaryNotes.lookup
      "example-title-page.md").isSome = true ∧
    (process_bookmark envGood "https://example.com/page" none emptySt).snd.summaryNotes.lookup
      "example-title-page.md" ≠ some "" :=
  ⟨rfl, by decide, by decide⟩

theorem get_webpage_hit {env : Env} {h u : String} {hc : Option String} {s : St}
    {v : String} (hv : s.webPage.lookup h = some v) :
    get_webpage env h u hc s = (.ok v, s) := by
  unfold get_webpage
  rw [hv]

theorem get_readability_hit {env : Env} {h html : String} {s : St}
    {obj : ReadabilityObj} {w : String} (h1 : s.readability.lookup h = some obj)
    (h2 : s.readabilityHtml.lookup h = some w) :
    get_readability env h html s = (.ok obj, s) := by
  unfold get_readability readability_html_step
  rw [h1, h2]

theorem generate_markdown_hit {env : Env} {kind : RegProcessor} {u2 h title : String}
    {content : Option String} {s : St} {md : String}
    (hm : s.summaryCache.lookup h = some md) :
    generate_markdown env kind u2 h title content s = (.ok md, s) := by
  unfold generate_markdown
  rw [hm]

theorem get_webpage_ok_post {env : Env} {h u : String} {hc : Option String} {s : St}
    {v : String} {s1 : St} (hok : get_webpage env h u hc s = (.ok v, s1)) :
    s1.webPage.lookup h = some v ∧
    s1.readability = s.readability ∧
    s1.readabilityHtml = s.readabilityHtml ∧
    s1.summaryCache = s.summaryCache ∧
    s1.summaryNotes = s.summaryNotes ∧
    s1.fetches ≤ s.fetches + 1 ∧
    s1.llmCalls = s.llmCalls := by
  unfold get_webpage at hok
  cases hl : s.webPage.lookup h with
  | some cached =>
    rw [hl] at hok
    have hfst := congrArg Prod.fst hok
    have hsnd := congrArg Prod.snd hok
    dsimp at hfst hsnd
    injection hfst with hv
    subst hv
    subst hsnd
    exact ⟨hl, rfl, rfl, rfl, rfl, Nat.le_succ _, rfl⟩
  | none =>
    rw [hl] at hok
    cases hc with
    | some supplied =>
      have hfst := congrArg Prod.fst hok
      have hsnd := congrArg Prod.snd hok
      dsimp at hfst hsnd
      injection hfst with hv
      subst hv
      subst hsnd
      exact ⟨by simp [List.lookup], rfl, rfl, rfl, rfl, Nat.le_succ _, rfl⟩
    | none =>
      by_cases h1 : (env.http u).status == 200
      · rw [if_pos h1] at hok
        have hfst := congrArg Prod.fst hok
        have hsnd := congrArg Prod.snd hok
        dsimp at hfst hsnd
        injection hfst with hv
        subst hv
        subst hsnd
        exact ⟨by simp [List.lookup], rfl, rfl, rfl, rfl, Nat.le_refl _, rfl⟩
      · rw [if_neg h1] at hok
        by_cases h2 : (env.http u).status == 403
        · rw [if_pos h2] at hok
          exact absurd (congrArg Prod.fst hok) (by simp)
        · rw [if_neg h2] at hok
          by_cases h3 : (env.http u).status == 404
          · rw [if_pos h3] at hok
            exact absurd (congrArg Prod.fst hok) (by simp)
          · rw [if_neg h3] at hok
            by_cases h4 : (env.http u).status == 500
            · rw [if_pos h4] at hok
              exact absurd (congrArg Prod.fst hok) (by simp)
            · rw [if_neg h4] at hok
              exact absurd (congrArg Prod.fst hok) (by simp)

theorem get_readability_ok_post {env : Env} {h html : String} {s : St}
    {obj : ReadabilityObj} {s1 : St}
    (hok : get_readability env h html s = (.ok obj, s1)) :
    s1.readability.lookup h = some obj ∧
    (∃ w, s1.readabilityHtml.lookup h = some w) ∧
    s1.webPage = s.webPage ∧
    s1.summaryCache = s.summaryCache ∧
    s1.summaryNotes = s.summaryNotes ∧
    s1.fetches = s.fetches ∧
    s1.llmCalls = s.llmCalls := by
  unfold get_readability readability_html_step at hok
  cases hl : s.readability.lookup h with
  | some obj0 =>
    rw [hl] at hok
    dsimp only at hok
    cases hh : s.readabilityHtml.lookup h with
    | some w =>
      rw [hh] at hok
      dsimp only at hok
      injection hok with hfst hsnd
      injection hfst with hv
      subst hv
      subst hsnd
      exact ⟨hl, ⟨w, hh⟩, rfl, rfl, rfl, rfl, rfl⟩
    | none =>
      rw [hh] at hok
      dsimp only at hok
      injection hok with hfst hsnd
      injection hfst with hv
      subst hv
      subst hsnd
      exact ⟨hl, ⟨env.extract_tree html, by simp [List.lookup]⟩, rfl, rfl, rfl, rfl, rfl⟩
  | none =>
    rw [hl] at hok
    dsimp only at hok
    cases hp : (env.extract_json html).plain_content with
    | none =>
      rw [hp] at hok
      dsimp only at hok
      exact absurd (congrArg Prod.fst hok) (by simp)
    | some txt =>
      rw [hp] at hok
      dsimp only at hok
      cases hh : s.readabilityHtml.lookup h with
      | some w =>
        rw [hh] at hok
        dsimp only at hok
        injection hok with hfst hsnd
        injection hfst with hv
        subst hv
        subst hsnd
        exact ⟨by simp [List.lookup], ⟨w, hh⟩, rfl, rfl, rfl, rfl, rfl⟩
      | none =>
        rw [hh] at hok
        dsimp only at hok
        injection hok with hfst hsnd
        injection hfst with hv
        subst hv
        subst hsnd
        exact ⟨by simp [List.lookup], ⟨env.extract_tree html, by simp [List.lookup]⟩,
          rfl, rfl, rfl, rfl, rfl⟩

theorem generate_markdown_ok_post {env : Env} {kind : RegProcessor} {u2 h title : String}
    {content : Option String} {s : St} {md : String} {s1 : St}
    (hok : generate_markdown env kind u2 h title content s = (.ok md, s1)) :
    s1.summaryCache.lookup h = some md ∧
    s1.webPage = s.webPage ∧
    s1.readability = s.readability ∧
    s1.readabilityHtml = s.readabilityHtml ∧
    s1.summaryNotes = s.summaryNotes ∧
    s1.fetches = s.fetches ∧
    s1.llmCalls ≤ s.llmCalls + 1 := by
  unfold generate_markdown at hok
  cases hl : s.summaryCache.lookup h with
  | some md0 =>
    rw [hl] at hok
    have hfst := congrArg Prod.fst hok
    have hsnd := congrArg Prod.snd hok
    dsimp at hfst hsnd
    injection hfst with hv
    subst hv
    subst hsnd
    exact ⟨hl, rfl, rfl, rfl, rfl, rfl, Nat.le_succ _⟩
  | none =>
    rw [hl] at hok
    have hfst := congrArg Prod.fst hok
    have hsnd := congrArg Prod.snd hok
    dsimp at hfst hsnd
    injection hfst with hv
    subst hv
    subst hsnd
    exact ⟨by simp [List.lookup], rfl, rfl, rfl, rfl, rfl, Nat.le_refl _⟩

theorem process_bookmark_ok_post {env : Env} {url : String} {hc : Option String}
    {s : St} {r : Option String} {s1 : St}
    (hok : process_bookmark env url hc s = (.ok r, s1)) :
    r = none ∧
    (∃ v, s1.webPage.lookup (env.url_hash url) = some v) ∧
    (∃ obj, s1.readability.lookup (env.url_hash url) = some obj) ∧
    (∃ w, s1.readabilityHtml.lookup (env.url_hash url) = some w) ∧
    (∃ md, s1.summaryCache.lookup (env.url_hash url) = some md) ∧
    s1.fetches ≤ s.fetches + 1 ∧
    s1.llmCalls ≤ s.llmCalls + 1 := by
  unfold process_bookmark at hok
  dsimp only at hok
  cases hgw : get_webpage env (env.url_hash url) url hc s with
  | mk rw1 sw =>
    rw [hgw] at hok
    cases rw1 with
    | error e => exact absurd (congrArg Prod.fst hok) (by simp)
    | ok html =>
      dsimp only at hok
      cases hgr : get_readability env (env.url_hash url) html sw with
      | mk rr sr =>
        rw [hgr] at hok
        cases rr with
        | error e => exact absurd (congrArg Prod.fst hok) (by simp)
        | ok obj =>
          dsimp only at hok
          cases hgm : generate_markdown env (get_processor url) url (env.url_hash url)
              obj.title obj.plain_content sr with
          | mk rm sm =>
            rw [hgm] at hok
            cases rm with
            | error e => exact absurd (congrArg Prod.fst hok) (by simp)
            | ok md =>
              dsimp only at hok
              injection hok with hfst hsnd
              injection hfst with hr
              subst hr
              subst hsnd
              obtain ⟨pw1, pw2, pw3, pw4, pw5, pw6, pw7⟩ := get_webpage_ok_post hgw
              obtain ⟨pr1, pr2, pr3, pr4, pr5, pr6, pr7⟩ := get_readability_ok_post hgr
              obtain ⟨pm1, pm2, pm3, pm4, pm5, pm6, pm7⟩ := generate_markdown_ok_post hgm
              refine ⟨rfl, ⟨html, ?_⟩, ⟨obj, ?_⟩, ?_, ⟨md, pm1⟩, ?_, ?_⟩
              · show sm.webPage.lookup (env.url_hash url) = some html
                rw [pm2, pr3]
                exact pw1
              · show sm.readability.lookup (env.url_hash url) = some obj
                rw [pm3]
                exact pr1
              · show ∃ w, sm.readabilityHtml.lookup (env.url_hash url) = some w
                rw [pm4]
                exact pr2
              · show sm.fetches ≤ s.fetches + 1
                rw [pm6, pr6]
                exact pw6
              · show sm.llmCalls ≤ s.llmCalls + 1
                calc sm.llmCalls ≤ sr.llmCalls + 1 := pm7
                  _ = sw.llmCalls + 1 := by rw [pr7]
                  _ = s.llmCalls + 1 := by rw [pw7]

theorem process_bookmark_second {env : Env} {url : String} {s1 : St}
    (hw : ∃ v, s1.webPage.lookup (env.url_hash url) = some v)
    (hr : ∃ obj, s1.readability.lookup (env.url_hash url) = some obj)
    (hrh : ∃ w, s1.readabilityHtml.lookup (env.url_hash url) = some w)
    (hm : ∃ md, s1.summaryCache.lookup (env.url_hash url) = some md) :
    ∃ s2, process_bookmark env url none s1 = (.ok none, s2) ∧
      s2.fetches = s1.fetches ∧ s2.llmCalls = s1.llmCalls := by
  obtain ⟨v, hv⟩ := hw
  obtain ⟨obj, hobj⟩ := hr
  obtain ⟨w, hwb⟩ := hrh
  obtain ⟨md, hmd⟩ := hm
  refine ⟨{ s1 with summaryNotes :=
    (sanitize_filename (py_take 50 obj.title) ++ "-" ++ py_last 4 (env.url_hash url) ++ ".md",
      md) :: s1.summaryNotes }, ?_, rfl, rfl⟩
  unfold process_bookmark
  dsimp only
  rw [get_webpage_hit hv]
  dsimp only
  rw [get_readability_hit hobj hwb]
  dsimp only
  rw [generate_markdown_hit hmd]

/-- C1: with no invalidation, a second end-to-end run of the pipeline on the
same URL is all cache hits: it succeeds, performs no further network fetch
and no further summarization call, and across both runs at most one fetch
and at most one summarization call happen; moreover each stage, given a
persisted artifact for its (fingerprint, stage) key, returns that artifact
and leaves the state untouched. -/
theorem cache_idempotent_second_run (env : Env) (url : String) (r1 : Option String)
    (s1 : St) (h1 : process_bookmark env url none emptySt = (.ok r1, s1)) :
    (∃ s2, process_bookmark env url none s1 = (.ok none, s2) ∧
      s2.fetches = s1.fetches ∧ s2.llmCalls = s1.llmCalls ∧
      s1.fetches ≤ 1 ∧ s1.llmCalls ≤ 1) ∧
    (∀ h u hc s v, s.webPage.lookup h = some v →
      get_webpage env h u hc s = (.ok v, s)) ∧
    (∀ h html s obj w, s.readability.lookup h = some obj →
      s.readabilityHtml.lookup h = some w →
      get_readability env h html s = (.ok obj, s)) ∧
    (∀ kind u2 h title content s md, s.summaryCache.lookup h = some md →
      generate_markdown env kind u2 h title content s = (.ok md, s)) := by
  obtain ⟨_, pw, pr, prh, pm, pf, pl⟩ := process_bookmark_ok_post h1
  refine ⟨?_, ?_, ?_, ?_⟩
  · obtain ⟨s2, h2, hf, hl⟩ := process_bookmark_second pw pr prh pm
    have hf1 : s1.fetches ≤ 1 := pf
    have hl1 : s1.llmCalls ≤ 1 := pl
    exact ⟨s2, h2, hf, hl, hf1, hl1⟩
  · intro h u hc s v hv
    exact get_webpage_hit hv
  · intro h html s obj w hobj hw
    exact get_readability_hit hobj hw
  · intro kind u2 h title content s md hmd
    exact generate_markdown_hit hmd

/-- Witness for C1: the second run on the example URL after a first run from
the empty store. -/
theorem cache_idempotent_second_run_witness :
    ∃ s2, process_bookmark envGood "https://example.com/page" none s1W = (.ok none, s2) ∧
      s2.fetches = s1W.fetches ∧ s2.llmCalls = s1W.llmCalls ∧
      s1W.fetches ≤ 1 ∧ s1W.llmCalls ≤ 1 :=
  (cache_idempotent_second_run envGood "https://example.com/page" none s1W rfl).1

theorem beq_symm_false {a b : String} (h : (a == b) = false) : (b == a) = false := by
  have hne : a ≠ b := beq_eq_false_iff_ne.mp h
  exact beq_eq_false_iff_ne.mpr (fun e => hne e.symm)

theorem lookup_set_status (h : String) (st : BStatus)
    (l : List (String × BookmarkRec)) (b : BookmarkRec)
    (hb : l.lookup h = some b) :
    (l.map (fun p => cond (p.fst == h) (p.fst, { p.snd with status := st }) p)).lookup h
      = some { b with status := st } := by
  induction l with
  | nil => simp at hb
  | cons p t ih =>
    obtain ⟨k, v⟩ := p
    by_cases hk : (h == k) = true
    · have hke : h = k := by simpa using hk
      subst hke
      have hv : v = b := by simpa [List.lookup] using hb
      subst hv
      simp [List.lookup]
    · have hkf : (h == k) = false := by simpa using hk
      have hkh : (k == h) = false := beq_symm_false hkf
      have hb2 : t.lookup h = some b := by simpa [List.lookup, hkf] using hb
      simp [List.lookup, hkf, hkh, ih hb2]

theorem countKey_eq_zero_of_lookup_none (h : String) (l : List (String × ErrorRec))
    (hn : l.lookup h = none) : countKey h l = 0 := by
  induction l with
  | nil => rfl
  | cons p t ih =>
    obtain ⟨k, v⟩ := p
    by_cases hk : (h == k) = true
    · simp [List.lookup, hk] at hn
    · have hkf : (h == k) = false := by simpa using hk
      have hkh : (k == h) = false := beq_symm_false hkf
      have hn2 : t.lookup h = none := by simpa [List.lookup, hkf] using hn
      have hc := ih hn2
      unfold countKey at hc ⊢
      rw [List.countP_cons, hc]
      simp [hkh]

theorem record_failure_bookmarks (h u t : String) (e : PErr) (s : St) :
    (record_failure h u t e s).bookmarks = s.bookmarks := by
  cases hl : s.errors.lookup h <;> simp [record_failure, hl]

/-- C2 (spec-modelled orchestrator wrapper): when the pipeline raises, the
wrapper re-raises the same exception; if no ProcessingError exists for the
fingerprint, one is written carrying the URL and the exception message;
if one already exists the ledger is left untouched (first-observed wins);
the bookmark stored under the fingerprint moves to Failed; and the ledger
never ends up with more than one row per fingerprint. -/
theorem failure_ledger_and_status (env : Env) (url : String) (hc : Option String)
    (s : St) (e : PErr) (s1 : St)
    (hfail : process_bookmark env url hc s = (.error e, s1)) :
    (process_bookmark_tracked env url hc s).fst = .error e ∧
    (s1.errors.lookup (env.url_hash url) = none →
      ∃ rec, (process_bookmark_tracked env url hc s).snd.errors.lookup (env.url_hash url)
        = some rec ∧ rec.url = url ∧ rec.exc = e.message) ∧
    (∀ rec, s1.errors.lookup (env.url_hash url) = some rec →
      (process_bookmark_tracked env url hc s).snd.errors = s1.errors) ∧
    (∀ b, s1.bookmarks.lookup (env.url_hash url) = some b →
      (process_bookmark_tracked env url hc s).snd.bookmarks.lookup (env.url_hash url)
        = some { b with status := .failed }) ∧
    (countKey (env.url_hash url) s1.errors ≤ 1 →
      countKey (env.url_hash url) (process_bookmark_tracked env url hc s).snd.errors ≤ 1) := by
  have hred : process_bookmark_tracked env url hc s
      = (.error e, set_status (env.url_hash url) .failed
          (record_failure (env.url_hash url) url (stored_title (env.url_hash url) s1) e s1)) := by
    unfold process_bookmark_tracked
    rw [hfail]
  rw [hred]
  refine ⟨rfl, ?_, ?_, ?_, ?_⟩
  · intro hn
    refine ⟨⟨url, stored_title (env.url_hash url) s1, e.message⟩, ?_, rfl, rfl⟩
    simp [set_status, record_failure, hn, List.lookup]
  · intro rec hsome
    simp [set_status, record_failure, hsome]
  · intro b hb
    have hbm := record_failure_bookmarks (env.url_hash url) url
      (stored_title (env.url_hash url) s1) e s1
    show ((record_failure (env.url_hash url) url _ e s1).bookmarks.map _).lookup _ = _
    rw [hbm]
    exact lookup_set_status (env.url_hash url) .failed s1.bookmarks b hb
  · intro hcount
    cases hl : s1.errors.lookup (env.url_hash url) with
    | some rec =>
      simpa [set_status, record_failure, hl] using hcount
    | none =>
      have h0 := countKey_eq_zero_of_lookup_none (env.url_hash url) s1.errors hl
      have herr : (set_status (env.url_hash url) BStatus.failed
          (record_failure (env.url_hash url) url
            (stored_title (env.url_hash url) s1) e s1)).errors
          = ((env.url_hash url), ⟨url, stored_title (env.url_hash url) s1, e.message⟩)
              :: s1.errors := by
        simp [set_status, record_failure, hl]
      rw [herr]
      unfold countKey at h0 ⊢
      rw [List.countP_cons, h0]
      simp

/-- Witness for C2: a 403 fetch failure on a store holding one new bookmark
for the fingerprint; the exception is re-raised, a ledger row appears and
the bookmark moves to Failed. -/
theorem failure_ledger_and_status_witness :
    (process_bookmark_tracked (envStatus 403) "u" none sBk).fst
      = .error (.forbidden "u") ∧
    (∃ rec, (process_bookmark_tracked (envStatus 403) "u" none sBk).snd.errors.lookup "hu"
      = some rec ∧ rec.url = "u" ∧ rec.exc = (PErr.forbidden "u").message) ∧
    (process_bookmark_tracked (envStatus 403) "u" none sBk).snd.bookmarks.lookup "hu"
      = some ⟨"u", "T", .failed⟩ := by
  have h := failure_ledger_and_status (envStatus 403) "u" none sBk (.forbidden "u")
    { sBk with fetches := 1 } rfl
  exact ⟨h.1, h.2.1 rfl, h.2.2.2.1 ⟨"u", "T", .new⟩ rfl⟩

end KM
